import Mathlib

/-!
Verification of the terminal-session recorder core (`script.rs`).

The definitions below are a shallow embedding of the Unix implementation in
`src/uu/script/src/script.rs`: the timing-line serializer, the echo-mode
derivation applied to the subordinate pseudo-terminal, the anti-clobber guard
of `open_output_file`, the `write_all` retry loop, the child-status decoding,
and the parent-side event loop of `handle_io` as an explicit step function
over an environment trace.
-/

namespace Script

/-! ## Configuration enums (source lines 38-66) -/

inductive LogFormat
  | classic
  | advanced
deriving DecidableEq, Repr

inductive EchoMode
  | always
  | never
  | auto
deriving DecidableEq, Repr

/-! ## Timing lines (source lines 590-614 and 684-708)

Elapsed time is modelled in whole microseconds; the Rust code formats
`elapsed.as_secs_f64()` with six decimal digits, which for a duration of
`us` microseconds prints the integral seconds, a dot, and the microsecond
remainder padded to six digits.  `writeln!` appends one newline to the
format string. -/

inductive Direction
  | input
  | output
deriving DecidableEq, Repr

def padZeros6 (k : Nat) : String :=
  String.mk (List.replicate (6 - (toString k).length) '0') ++ toString k

def fmt6 (us : Nat) : String :=
  toString (us / 1000000) ++ "." ++ padZeros6 (us % 1000000)

def timingLine (fmt : LogFormat) (dir : Direction) (us n : Nat) : String :=
  match dir, fmt with
  | Direction.input, LogFormat.classic => fmt6 us ++ " " ++ toString n ++ "\n"
  | Direction.input, LogFormat.advanced => "I " ++ fmt6 us ++ " " ++ toString n ++ "\n"
  | Direction.output, LogFormat.classic => "O " ++ fmt6 us ++ " " ++ toString n ++ "\n" ++ "\n"
  | Direction.output, LogFormat.advanced => "O " ++ fmt6 us ++ " " ++ toString n ++ "\n" ++ "\n"

/-! ## Terminal attributes and echo policy (source lines 219-242 and 263-291)

`Termios.echo` models the ECHO bit of `local_flags`, the only bit the code
reads or writes; `rest` stands for the remaining captured settings. -/

structure Termios where
  echo : Bool
  rest : Nat
deriving DecidableEq, Repr

def applyEchoMode (mode : EchoMode) (isatty : Bool) (t : Termios) : Termios :=
  match mode with
  | EchoMode.always => { t with echo := true }
  | EchoMode.never => { t with echo := false }
  | EchoMode.auto =>
      if isatty then { t with echo := false } else { t with echo := true }

/-- The `tcgetattr` snapshot: taken only when stdin is a terminal. -/
def termiosSnapshot (isatty : Bool) (t : Termios) : Option Termios :=
  if isatty then some t else none

/-- The attributes passed to `tcsetattr` on the subordinate side: applied only
when a snapshot was captured. -/
def slaveAttrsApplied (mode : EchoMode) (isatty : Bool) (t : Termios) : Option Termios :=
  match termiosSnapshot isatty t with
  | some ts => some (applyEchoMode mode isatty ts)
  | none => none

/-! ## Opening output sinks (source lines 115-133 and 150-216) -/

inductive Role
  | transcript
  | logIn
  | logOut
  | logIo
  | timing
deriving DecidableEq, Repr

inductive OpenErr
  | refusedMultiLink
  | osError
deriving DecidableEq, Repr

/-- The part of the filesystem state `open_output_file` consults: the result
of `std::fs::metadata` (the hard-link count when it succeeds) and whether the
`OpenOptions::open` call would succeed. -/
structure FsEntry where
  nlink : Option Nat
  openOk : Bool
deriving DecidableEq, Repr

def multiLinked (e : FsEntry) : Bool :=
  match e.nlink with
  | some n => decide (n > 1)
  | none => false

def open_output_file (e : FsEntry) (append force : Bool) : Except OpenErr Unit :=
  if !force && !append && multiLinked e then
    Except.error OpenErr.refusedMultiLink
  else if e.openOk then
    Except.ok ()
  else
    Except.error OpenErr.osError

structure OpenCfg where
  append : Bool
  force : Bool
  hasLogIn : Bool
  hasLogOut : Bool
  hasLogIo : Bool
  hasTiming : Bool
deriving DecidableEq, Repr

structure SessionFs where
  transcriptE : FsEntry
  logInE : FsEntry
  logOutE : FsEntry
  logIoE : FsEntry
  timingE : FsEntry
deriving DecidableEq, Repr

/-- The sequence of `open_output_file` calls `run_script` makes, in source
order, as (role, entry, append argument, force argument).  The transcript is
opened with the session's own append/force flags; every optional sink is
opened with the force argument hard-coded to `true`. -/
def sinkOpenCalls (o : OpenCfg) (fs : SessionFs) : List (Role × FsEntry × Bool × Bool) :=
  (Role.transcript, fs.transcriptE, o.append, o.force) ::
    ((if o.hasLogIn then [(Role.logIn, fs.logInE, o.append, true)] else []) ++
      (if o.hasLogOut then [(Role.logOut, fs.logOutE, o.append, true)] else []) ++
      (if o.hasLogIo then [(Role.logIo, fs.logIoE, o.append, true)] else []) ++
      (if o.hasTiming then [(Role.timing, fs.timingE, o.append, true)] else []))

def exceptOkB {α β : Type} : Except α β → Bool
  | Except.ok _ => true
  | Except.error _ => false

/-- The open phase of `run_script` (lines 150-216): each open failure returns
immediately with a fatal error. -/
def openAllSinks (o : OpenCfg) (fs : SessionFs) : Except OpenErr Unit :=
  match open_output_file fs.transcriptE o.append o.force with
  | Except.error e => Except.error e
  | Except.ok _ =>
    match (if o.hasLogIn then open_output_file fs.logInE o.append true else Except.ok ()) with
    | Except.error e => Except.error e
    | Except.ok _ =>
      match (if o.hasLogOut then open_output_file fs.logOutE o.append true else Except.ok ()) with
      | Except.error e => Except.error e
      | Except.ok _ =>
        match (if o.hasLogIo then open_output_file fs.logIoE o.append true else Except.ok ()) with
        | Except.error e => Except.error e
        | Except.ok _ =>
          if o.hasTiming then open_output_file fs.timingE o.append true else Except.ok ()

/-! ## Child status decoding (source lines 500-512) and exit-code mirroring
(source lines 333-343) -/

inductive ChildStatus
  | exited (code : Nat)
  | signaled (sig : Nat)
deriving DecidableEq, Repr

def decodeStatus : ChildStatus → Nat
  | ChildStatus.exited c => c
  | ChildStatus.signaled s => 128 + s

/-- The process exit code after `handle_io` returns: with `return_exit_status`
the recorded child status is installed via `set_exit_code` (an `Err` from
`handle_io` becomes exit 1); without it the exit code stays 0. -/
def finalExitCode (returnExitStatus : Bool) (r : Except String Nat) : Nat :=
  if returnExitStatus then
    match r with
    | Except.ok s => s
    | Except.error _ => 1
  else 0

/-! ## `write_all` (source lines 748-776)

The behaviour of the file descriptor is an oracle trace of syscall outcomes:
`ok n` is a `write` returning `n ≥ 0`, the others are the three error kinds
distinguished by the code.  The function returns the loop's result (`none`
when the trace ends while the loop is still spinning) together with the bytes
actually handed to the descriptor, in order. -/

inductive SysWrite
  | ok (n : Nat)
  | wouldBlock
  | intr
  | errOther
deriving DecidableEq, Repr

inductive WErr
  | writeZero
  | osOther
deriving DecidableEq, Repr

def write_all : List SysWrite → List Nat → Option (Except WErr Unit) × List Nat
  | _, [] => (some (Except.ok ()), [])
  | [], _ :: _ => (none, [])
  | SysWrite.ok n :: rest, b :: bs =>
      if n = 0 then (some (Except.error WErr.writeZero), [])
      else
        let r := write_all rest (List.drop n (b :: bs))
        (r.1, List.take n (b :: bs) ++ r.2)
  | SysWrite.wouldBlock :: rest, b :: bs => write_all rest (b :: bs)
  | SysWrite.intr :: rest, b :: bs => write_all rest (b :: bs)
  | SysWrite.errOther :: _, _ :: _ => (some (Except.error WErr.osOther), [])

/-! ## The `handle_io` event loop (source lines 403-746)

One iteration of the `select` loop is a pure step function over the loop
state, driven by an `IterInput` describing what the environment (kernel,
child, signal handler, sinks) did during that iteration.  Sink writes that
can fail are given success flags in the input; a failed write leaves the
sink's modelled content unchanged and emits a diagnostic report, exactly as
the code prints to stderr and carries on. -/

/-- The signal handler for SIGUSR1 (source lines 34-36): it only stores
`true` into the flag, whatever its previous value. -/
def handle_sigusr1 (_flag : Bool) : Bool := true

structure SinkCfg where
  hasLogIn : Bool
  hasLogOut : Bool
  hasLogIo : Bool
  hasTiming : Bool
  logFormat : LogFormat
  flushEvery : Bool
  outputLimit : Option Nat
deriving DecidableEq, Repr

/-- Success flags for the fallible writes of one iteration. -/
structure WriteFlags where
  toMaster : Bool
  toStdout : Bool
  toTranscript : Bool
  toLogIn : Bool
  toLogOut : Bool
  toLogIoIn : Bool
  toLogIoOut : Bool
  toTimingIn : Bool
  toTimingOut : Bool
deriving DecidableEq, Repr

/-- Result of a non-blocking `read`: `data bs` is a return of `bs.length ≥ 0`
bytes (zero bytes is end of stream), the other two split the `n < 0` case by
errno kind. -/
inductive ReadResult
  | data (bytes : List Nat)
  | wouldBlock
  | errOther
deriving DecidableEq, Repr

inductive SelectResult
  | ready (stdinReady masterReady : Bool)
  | interrupted
  | failed
deriving DecidableEq, Repr

structure IterInput where
  selectRes : SelectResult
  waitRes : Option ChildStatus
  sigusr1 : Bool
  stdinRead : ReadResult
  masterRead : ReadResult
  stdinNow : Nat
  masterNow : Nat
  writes : WriteFlags
deriving DecidableEq, Repr

structure LoopState where
  totalBytes : Nat
  exitStatus : Nat
  childExited : Bool
  flushFlag : Bool
  killed : Bool
  lastUs : Nat
  transcript : List Nat
  timingLog : String
deriving DecidableEq, Repr

def initState : LoopState :=
  { totalBytes := 0, exitStatus := 0, childExited := false, flushFlag := false,
    killed := false, lastUs := 0, transcript := [], timingLog := "" }

inductive Report
  | writeFailed (r : Role)
  | masterWriteFailed
  | stdoutWriteFailed
  | stdinReadFailed
  | masterReadFailed
  | limitReached (l : Nat)
deriving DecidableEq, Repr

inductive StepOut
  | cont (st : LoopState)
  | brk (st : LoopState)
  | fatal
deriving DecidableEq, Repr

structure StepRes where
  out : StepOut
  reports : List Report
  sigFlushed : List Role
deriving DecidableEq, Repr

/-- The non-blocking `waitpid` check (lines 500-512, and 480-492 on the
interrupted path): a reaped child sets `child_exited` and records the
decoded status. -/
def applyWait (st : LoopState) : Option ChildStatus → LoopState
  | none => st
  | some cs => { st with childExited := true, exitStatus := decodeStatus cs }

/-- The sinks open in this session, in the order the flush block visits them
(lines 516-543). -/
def openRoles (cfg : SinkCfg) : List Role :=
  Role.transcript ::
    ((if cfg.hasLogIn then [Role.logIn] else []) ++
      (if cfg.hasLogOut then [Role.logOut] else []) ++
      (if cfg.hasLogIo then [Role.logIo] else []) ++
      (if cfg.hasTiming then [Role.timing] else []))

/-- Models `FLUSH_LOGS.swap(false)` followed by flushing every open sink when the
old value was `true` (lines 514-543). -/
def consumeFlag (cfg : SinkCfg) (st : LoopState) : LoopState × List Role :=
  if st.flushFlag then ({ st with flushFlag := false }, openRoles cfg)
  else (st, [])

/-- The stdin-readable branch (lines 546-626).  A positive read relays the
bytes to the master side, mirrors them to the input and combined logs, and
appends an input timing line; a zero read (EOF) and a would-block read do
nothing; any other read error is reported and the loop continues. -/
def stdinBranch (cfg : SinkCfg) (st : LoopState) (inp : IterInput) :
    LoopState × List Report :=
  match inp.stdinRead with
  | ReadResult.data bs =>
    if bs.length = 0 then (st, [])
    else
      let elapsed := inp.stdinNow - st.lastUs
      let st2 := { st with
        lastUs := inp.stdinNow,
        timingLog := st.timingLog ++
          (if cfg.hasTiming && inp.writes.toTimingIn then
            timingLine cfg.logFormat Direction.input elapsed bs.length
          else "") }
      (st2,
        (if inp.writes.toMaster then [] else [Report.masterWriteFailed]) ++
        (if cfg.hasLogIn && !inp.writes.toLogIn then [Report.writeFailed Role.logIn] else []) ++
        (if cfg.hasLogIo && !inp.writes.toLogIoIn then [Report.writeFailed Role.logIo] else []) ++
        (if cfg.hasTiming && !inp.writes.toTimingIn then [Report.writeFailed Role.timing] else []))
  | ReadResult.wouldBlock => (st, [])
  | ReadResult.errOther => (st, [Report.stdinReadFailed])

/-- The master-readable branch (lines 629-733).  A positive read relays the
bytes to stdout, appends them to the transcript, mirrors them to the output
and combined logs, appends an output timing line, adds the count to the
running total, and breaks with a kill request when a configured limit is
reached; a zero read breaks (child closed its output); a non-would-block
error reports and breaks. -/
def masterBranch (cfg : SinkCfg) (st : LoopState) (inp : IterInput) :
    StepOut × List Report :=
  match inp.masterRead with
  | ReadResult.data bs =>
    if bs.length = 0 then (StepOut.brk st, [])
    else
      let elapsed := inp.masterNow - st.lastUs
      let st2 := { st with
        lastUs := inp.masterNow,
        transcript := st.transcript ++ (if inp.writes.toTranscript then bs else []),
        timingLog := st.timingLog ++
          (if cfg.hasTiming && inp.writes.toTimingOut then
            timingLine cfg.logFormat Direction.output elapsed bs.length
          else ""),
        totalBytes := st.totalBytes + bs.length }
      let reps :=
        (if inp.writes.toStdout then [] else [Report.stdoutWriteFailed]) ++
        (if inp.writes.toTranscript then [] else [Report.writeFailed Role.transcript]) ++
        (if cfg.hasLogOut && !inp.writes.toLogOut then [Report.writeFailed Role.logOut] else []) ++
        (if cfg.hasLogIo && !inp.writes.toLogIoOut then [Report.writeFailed Role.logIo] else []) ++
        (if cfg.hasTiming && !inp.writes.toTimingOut then [Report.writeFailed Role.timing] else [])
      match cfg.outputLimit with
      | some limit =>
        if st2.totalBytes ≥ limit then
          (StepOut.brk { st2 with killed := true }, reps ++ [Report.limitReached limit])
        else (StepOut.cont st2, reps)
      | none => (StepOut.cont st2, reps)
  | ReadResult.wouldBlock => (StepOut.cont st, [])
  | ReadResult.errOther => (StepOut.brk st, [Report.masterReadFailed])

/-- One iteration of the `while !child_exited` loop.  The handler may have
fired at any point since the last consumption; a `select` failure other than
EINTR is fatal; EINTR re-checks the child and continues; otherwise the
iteration checks the child, consumes the flush flag, then services the two
readable descriptors. -/
def step (cfg : SinkCfg) (st : LoopState) (inp : IterInput) : StepRes :=
  let st0 := if inp.sigusr1 then { st with flushFlag := handle_sigusr1 st.flushFlag } else st
  match inp.selectRes with
  | SelectResult.failed => ⟨StepOut.fatal, [], []⟩
  | SelectResult.interrupted => ⟨StepOut.cont (applyWait st0 inp.waitRes), [], []⟩
  | SelectResult.ready sR mR =>
    let st1 := applyWait st0 inp.waitRes
    let p2 := consumeFlag cfg st1
    let p3 := if sR then stdinBranch cfg p2.1 inp else (p2.1, [])
    let p4 := if mR then masterBranch cfg p3.1 inp else (StepOut.cont p3.1, [])
    ⟨p4.1, p3.2 ++ p4.2, p2.2⟩

/-- The state carried out of a step (a fatal step leaves the state as is). -/
def stepSt (cfg : SinkCfg) (st : LoopState) (inp : IterInput) : LoopState :=
  match (step cfg st inp).out with
  | StepOut.cont s => s
  | StepOut.brk s => s
  | StepOut.fatal => st

inductive StepKind
  | contK
  | brkK
  | fatalK
deriving DecidableEq, Repr

def outKind : StepOut → StepKind
  | StepOut.cont _ => StepKind.contK
  | StepOut.brk _ => StepKind.brkK
  | StepOut.fatal => StepKind.fatalK

inductive LoopResult
  | stillRunning (st : LoopState)
  | finished (status : Nat) (st : LoopState)
  | failed (st : LoopState)
deriving DecidableEq, Repr

/-- Driving the loop over a trace of iteration inputs.  A break returns
`Ok(exit_status)`; after a normal iteration the `while` condition re-checks
`child_exited`; a fatal step returns `Err`. -/
def runLoop (cfg : SinkCfg) : LoopState → List IterInput → LoopResult
  | st, [] => LoopResult.stillRunning st
  | st, inp :: rest =>
    match (step cfg st inp).out with
    | StepOut.fatal => LoopResult.failed st
    | StepOut.brk st2 => LoopResult.finished st2.exitStatus st2
    | StepOut.cont st2 =>
      if st2.childExited then LoopResult.finished st2.exitStatus st2
      else runLoop cfg st2 rest

def LoopResult.finalState : LoopResult → LoopState
  | LoopResult.stillRunning st => st
  | LoopResult.finished _ st => st
  | LoopResult.failed st => st

def LoopResult.endedOk : LoopResult → Bool
  | LoopResult.finished _ _ => true
  | _ => false

def LoopResult.isRunning : LoopResult → Bool
  | LoopResult.stillRunning _ => true
  | _ => false

def StepOut.isBrk : StepOut → Bool
  | StepOut.brk _ => true
  | _ => false

/-- The number of output-direction bytes an iteration delivers: the length of
a successful master-side read in an iteration whose `select` reported the
master descriptor readable. -/
def masterLen (inp : IterInput) : Nat :=
  match inp.selectRes, inp.masterRead with
  | SelectResult.ready _ true, ReadResult.data bs => bs.length
  | _, _ => 0

/-! ## Claim theorems -/

/-- Claim C1: the claim says a `classic`-format timing line carries no direction
tag for either direction.  The code disagrees: for output transfers the
`classic` branch writes the same tagged line as the `advanced` branch, `"O "`
followed by the six-decimal elapsed seconds and the byte count, plus a
trailing blank line from the extra newline in the format string.  Evaluated
here at an output transfer of 5 bytes with zero elapsed time, together with
the input-direction lines, which do match the claim. -/
theorem classic_output_timing_line_eval :
    timingLine LogFormat.classic Direction.output 0 5 = "O 0.000000 5\n\n" ∧
    timingLine LogFormat.advanced Direction.output 0 5 = "O 0.000000 5\n\n" ∧
    timingLine LogFormat.classic Direction.input 0 5 = "0.000000 5\n" ∧
    timingLine LogFormat.advanced Direction.input 0 5 = "I 0.000000 5\n" ∧
    timingLine LogFormat.classic Direction.output 0 5 ≠ "0.000000 5\n" := by
  refine ⟨rfl, rfl, rfl, rfl, ?_⟩
  decide

/-- Claim C2: the subordinate-side echo setting derived from the policy is on for
`always`, off for `never`, and for `auto` off exactly when the caller's input
is a real terminal; whenever a terminal snapshot exists (input is a
terminal), `tcsetattr` is invoked with exactly that derived setting. -/
theorem echo_policy (isatty : Bool) (t : Termios) (m : EchoMode) :
    (applyEchoMode EchoMode.always isatty t).echo = true ∧
    (applyEchoMode EchoMode.never isatty t).echo = false ∧
    (applyEchoMode EchoMode.auto true t).echo = false ∧
    (applyEchoMode EchoMode.auto false t).echo = true ∧
    slaveAttrsApplied m true t = some (applyEchoMode m true t) := by
  refine ⟨rfl, rfl, rfl, rfl, ?_⟩
  simp [slaveAttrsApplied, termiosSnapshot]

/-- Claim C9: when stdin is not a terminal, no attribute snapshot is taken and no
attributes are applied to the subordinate side, so every echo mode (including
`always` and `never`) produces the same — absent — application. -/
theorem no_tty_no_attrs (m1 m2 : EchoMode) (t : Termios) :
    termiosSnapshot false t = none ∧
    slaveAttrsApplied m1 false t = none ∧
    slaveAttrsApplied m1 false t = slaveAttrsApplied m2 false t := by
  refine ⟨rfl, ?_, ?_⟩ <;> simp [slaveAttrsApplied, termiosSnapshot]

/-- Claim C4: a reaped child records its plain exit code on normal exit and
128 plus the signal number on signalled termination, the non-blocking wait
check installs exactly that value and marks the child exited, and with
`return_exit_status` the recorded status becomes the process exit code
unchanged. -/
theorem exit_status_decode_mirror (c s : Nat) (st : LoopState) (cs : ChildStatus) :
    decodeStatus (ChildStatus.exited c) = c ∧
    decodeStatus (ChildStatus.signaled s) = 128 + s ∧
    (applyWait st (some cs)).exitStatus = decodeStatus cs ∧
    (applyWait st (some cs)).childExited = true ∧
    (∀ n : Nat, finalExitCode true (Except.ok n) = n) := by
  exact ⟨rfl, rfl, rfl, rfl, fun n => rfl⟩

lemma mem_if_singleton {α : Type} {b : Bool} {x c : α}
    (h : c ∈ (if b then [x] else [])) : c = x := by
  cases b
  · simp at h
  · simpa using h

/-- Claim C5: the transcript open refuses (anti-clobber) exactly when the session
is neither appending nor force-opening and the target resolves to an entry
with more than one hard link; every optional sink open in `run_script` passes
`force = true`, and an open with `force = true` can never produce the
refusal. -/
theorem anti_clobber_exactly (e : FsEntry) (append force : Bool)
    (o : OpenCfg) (fs : SessionFs) :
    (open_output_file e append force = Except.error OpenErr.refusedMultiLink ↔
      force = false ∧ append = false ∧ multiLinked e = true) ∧
    (∀ c ∈ sinkOpenCalls o fs, c.1 ≠ Role.transcript → c.2.2.2 = true) ∧
    (∀ (e2 : FsEntry) (a2 : Bool),
      open_output_file e2 a2 true ≠ Except.error OpenErr.refusedMultiLink) := by
  refine ⟨?_, ?_, ?_⟩
  · cases force <;> cases append <;> cases hm : multiLinked e <;>
      cases hok : e.openOk <;> simp [open_output_file, hm, hok]
  · intro c hc hne
    rcases List.mem_cons.mp hc with h | h
    · subst h; exact absurd rfl hne
    · rcases List.mem_append.mp h with h | h
      · rcases List.mem_append.mp h with h | h
        · rcases List.mem_append.mp h with h | h
          · have hx := mem_if_singleton h; subst hx; rfl
          · have hx := mem_if_singleton h; subst hx; rfl
        · have hx := mem_if_singleton h; subst hx; rfl
      · have hx := mem_if_singleton h; subst hx; rfl
  · intro e2 a2 h
    cases hok : e2.openOk <;> simp [open_output_file, hok] at h

def fsE0 : FsEntry := { nlink := some 2, openOk := true }

def o0 : OpenCfg :=
  { append := false, force := false, hasLogIn := true, hasLogOut := false,
    hasLogIo := false, hasTiming := true }

def fs0 : SessionFs :=
  { transcriptE := fsE0, logInE := { nlink := some 1, openOk := true },
    logOutE := { nlink := some 1, openOk := true },
    logIoE := { nlink := some 1, openOk := true },
    timingE := { nlink := some 1, openOk := true } }

/-- Witness for C5: a doubly-linked target opened without append or force is
refused. -/
theorem anti_clobber_exactly_witness :
    (false = false ∧ false = false ∧ multiLinked fsE0 = true) ∧
    open_output_file fsE0 false false = Except.error OpenErr.refusedMultiLink :=
  ⟨⟨rfl, rfl, by decide⟩,
    (anti_clobber_exactly fsE0 false false o0 fs0).1.mpr ⟨rfl, rfl, by decide⟩⟩

lemma write_all_nil_buf (outs : List SysWrite) :
    write_all outs [] = (some (Except.ok ()), []) := by
  cases outs with
  | nil => rfl
  | cons o rest => cases o <;> rfl

lemma write_all_ok_delivers :
    ∀ (outs : List SysWrite) (buf : List Nat),
      (write_all outs buf).1 = some (Except.ok ()) → (write_all outs buf).2 = buf := by
  intro outs
  induction outs with
  | nil =>
    intro buf h
    cases buf with
    | nil => rfl
    | cons b bs => simp [write_all] at h
  | cons o rest ih =>
    intro buf h
    cases buf with
    | nil => rw [write_all_nil_buf]
    | cons b bs =>
      cases o with
      | ok n =>
        by_cases hn : n = 0
        · subst hn; simp [write_all] at h
        · simp only [write_all, if_neg hn] at h ⊢
          rw [ih (List.drop n (b :: bs)) h, List.take_append_drop]
      | wouldBlock => exact ih (b :: bs) h
      | intr => exact ih (b :: bs) h
      | errOther => simp [write_all] at h

/-- Claim C10: the `write_all` retry loop returns `Ok` only once every byte of the
buffer, in order, has been handed to the descriptor; would-block and
interrupted writes are retried with the buffer untouched; and a `write`
returning zero yields a `WriteZero` error instead of looping forever. -/
theorem write_all_correct (outs rest : List SysWrite) (buf bs : List Nat) (b : Nat) :
    ((write_all outs buf).1 = some (Except.ok ()) → (write_all outs buf).2 = buf) ∧
    write_all (SysWrite.wouldBlock :: rest) buf = write_all rest buf ∧
    write_all (SysWrite.intr :: rest) buf = write_all rest buf ∧
    (write_all (SysWrite.ok 0 :: rest) (b :: bs)).1
      = some (Except.error WErr.writeZero) := by
  refine ⟨write_all_ok_delivers outs buf, ?_, ?_, rfl⟩ <;> cases buf <;>
    first
      | rfl
      | simp [write_all_nil_buf]

/-- Witness for C10: a trace of two partial writes with an interruption in
between delivers the whole five-byte buffer. -/
theorem write_all_correct_witness :
    (write_all [SysWrite.ok 2, SysWrite.intr, SysWrite.ok 3] [1, 2, 3, 4, 5]).1
        = some (Except.ok ()) ∧
    (write_all [SysWrite.ok 2, SysWrite.intr, SysWrite.ok 3] [1, 2, 3, 4, 5]).2
        = [1, 2, 3, 4, 5] :=
  ⟨rfl,
    (write_all_correct [SysWrite.ok 2, SysWrite.intr, SysWrite.ok 3] []
      [1, 2, 3, 4, 5] [] 0).1 rfl⟩

/-! ## Step characterization lemmas -/

def stepOutSt (o : StepOut) (dflt : LoopState) : LoopState :=
  match o with
  | StepOut.cont s => s
  | StepOut.brk s => s
  | StepOut.fatal => dflt

def readLen : ReadResult → Nat
  | ReadResult.data bs => bs.length
  | _ => 0

/-- Whether this iteration's master-side read trips the configured limit. -/
def limitHit (cfg : SinkCfg) (st : LoopState) (inp : IterInput) : Bool :=
  match inp.selectRes, inp.masterRead, cfg.outputLimit with
  | SelectResult.ready _ true, ReadResult.data bs, some l =>
      decide (0 < bs.length) && decide (st.totalBytes + bs.length ≥ l)
  | _, _, _ => false

/-- Whether this iteration executes one of the three `break` statements. -/
def breaksLoop (cfg : SinkCfg) (st : LoopState) (inp : IterInput) : Bool :=
  match inp.selectRes with
  | SelectResult.ready _ true =>
    match inp.masterRead with
    | ReadResult.data bs => decide (bs.length = 0) || limitHit cfg st inp
    | ReadResult.errOther => true
    | ReadResult.wouldBlock => false
  | _ => false

lemma consumeFlag_fst (cfg : SinkCfg) (st : LoopState) :
    (consumeFlag cfg st).1.totalBytes = st.totalBytes ∧
    (consumeFlag cfg st).1.transcript = st.transcript ∧
    (consumeFlag cfg st).1.childExited = st.childExited ∧
    (consumeFlag cfg st).1.exitStatus = st.exitStatus ∧
    (consumeFlag cfg st).1.killed = st.killed ∧
    (consumeFlag cfg st).1.flushFlag = false := by
  unfold consumeFlag
  by_cases h : st.flushFlag <;> simp [h]

lemma stdinBranch_fst (cfg : SinkCfg) (st : LoopState) (inp : IterInput) :
    (stdinBranch cfg st inp).1.totalBytes = st.totalBytes ∧
    (stdinBranch cfg st inp).1.transcript = st.transcript ∧
    (stdinBranch cfg st inp).1.childExited = st.childExited ∧
    (stdinBranch cfg st inp).1.exitStatus = st.exitStatus ∧
    (stdinBranch cfg st inp).1.killed = st.killed ∧
    (stdinBranch cfg st inp).1.flushFlag = st.flushFlag := by
  unfold stdinBranch
  cases inp.stdinRead with
  | data bs =>
    by_cases h : bs.length = 0 <;> simp [h]
  | wouldBlock => simp
  | errOther => simp

lemma masterBranch_not_fatal (cfg : SinkCfg) (st : LoopState) (inp : IterInput) :
    (masterBranch cfg st inp).1 ≠ StepOut.fatal := by
  unfold masterBranch
  cases inp.masterRead with
  | data bs =>
    by_cases h : bs.length = 0
    · simp [h]
    · cases hl : cfg.outputLimit with
      | none => simp [h, hl]
      | some l =>
        by_cases hge : l ≤ st.totalBytes + bs.length <;> simp [h, hl, hge]
  | wouldBlock => simp
  | errOther => simp

lemma masterBranch_fields (cfg : SinkCfg) (st : LoopState) (inp : IterInput) :
    (stepOutSt (masterBranch cfg st inp).1 st).totalBytes
        = st.totalBytes + readLen inp.masterRead ∧
    (stepOutSt (masterBranch cfg st inp).1 st).childExited = st.childExited ∧
    (stepOutSt (masterBranch cfg st inp).1 st).exitStatus = st.exitStatus ∧
    (stepOutSt (masterBranch cfg st inp).1 st).flushFlag = st.flushFlag ∧
    (stepOutSt (masterBranch cfg st inp).1 st).transcript.length
        ≤ st.transcript.length + readLen inp.masterRead := by
  unfold masterBranch
  cases inp.masterRead with
  | data bs =>
    by_cases h : bs.length = 0
    · simp [stepOutSt, readLen, h]
    · cases hl : cfg.outputLimit with
      | none =>
        refine ⟨by simp [stepOutSt, readLen, h, hl], by simp [stepOutSt, h, hl],
          by simp [stepOutSt, h, hl], by simp [stepOutSt, h, hl], ?_⟩
        simp only [stepOutSt, readLen, h, hl, if_neg h, List.length_append]
        by_cases hw : inp.writes.toTranscript <;> simp [hw]
      | some l =>
        by_cases hge : l ≤ st.totalBytes + bs.length <;>
          · refine ⟨by simp [stepOutSt, readLen, h, hl, hge], by simp [stepOutSt, h, hl, hge],
              by simp [stepOutSt, h, hl, hge], by simp [stepOutSt, h, hl, hge], ?_⟩
            simp only [stepOutSt, readLen, h, hl, hge, if_neg h, List.length_append]
            by_cases hw : inp.writes.toTranscript <;> simp [hw, hge]
  | wouldBlock => simp [stepOutSt, readLen]
  | errOther => simp [stepOutSt, readLen]

lemma masterBranch_totalBytes (cfg : SinkCfg) (st : LoopState) (inp : IterInput) :
    (stepOutSt (masterBranch cfg st inp).1 st).totalBytes
      = st.totalBytes + readLen inp.masterRead :=
  (masterBranch_fields cfg st inp).1

lemma masterBranch_childExited (cfg : SinkCfg) (st : LoopState) (inp : IterInput) :
    (stepOutSt (masterBranch cfg st inp).1 st).childExited = st.childExited :=
  (masterBranch_fields cfg st inp).2.1

lemma masterBranch_exitStatus (cfg : SinkCfg) (st : LoopState) (inp : IterInput) :
    (stepOutSt (masterBranch cfg st inp).1 st).exitStatus = st.exitStatus :=
  (masterBranch_fields cfg st inp).2.2.1

lemma masterBranch_flushFlag (cfg : SinkCfg) (st : LoopState) (inp : IterInput) :
    (stepOutSt (masterBranch cfg st inp).1 st).flushFlag = st.flushFlag :=
  (masterBranch_fields cfg st inp).2.2.2.1

lemma masterBranch_transcript_le (cfg : SinkCfg) (st : LoopState) (inp : IterInput) :
    (stepOutSt (masterBranch cfg st inp).1 st).transcript.length
      ≤ st.transcript.length + readLen inp.masterRead :=
  (masterBranch_fields cfg st inp).2.2.2.2

lemma masterBranch_killed (cfg : SinkCfg) (st : LoopState) (inp : IterInput) :
    (stepOutSt (masterBranch cfg st inp).1 st).killed
      = (st.killed ||
          (match inp.masterRead, cfg.outputLimit with
           | ReadResult.data bs, some l =>
               decide (0 < bs.length) && decide (st.totalBytes + bs.length ≥ l)
           | _, _ => false)) := by
  unfold masterBranch
  cases inp.masterRead with
  | data bs =>
    cases hl : cfg.outputLimit with
    | none => by_cases h : bs.length = 0 <;> simp [stepOutSt, h, hl]
    | some l =>
      by_cases h : bs.length = 0
      · simp [stepOutSt, h, hl]
      · by_cases hge : l ≤ st.totalBytes + bs.length <;>
          simp [stepOutSt, h, hl, hge, Nat.pos_of_ne_zero h]
  | wouldBlock => simp [stepOutSt]
  | errOther => simp [stepOutSt]

lemma masterBranch_kind (cfg : SinkCfg) (st : LoopState) (inp : IterInput) :
    outKind (masterBranch cfg st inp).1 =
      (match inp.masterRead with
       | ReadResult.data bs =>
         if bs.length = 0 then StepKind.brkK
         else
           match cfg.outputLimit with
           | some l =>
               if l ≤ st.totalBytes + bs.length then StepKind.brkK else StepKind.contK
           | none => StepKind.contK
       | ReadResult.wouldBlock => StepKind.contK
       | ReadResult.errOther => StepKind.brkK) := by
  unfold masterBranch
  cases inp.masterRead with
  | data bs =>
    by_cases h : bs.length = 0
    · simp [h, outKind]
    · cases hl : cfg.outputLimit with
      | none => simp [h, hl, outKind]
      | some l =>
        by_cases hge : l ≤ st.totalBytes + bs.length <;> simp [h, hl, hge, outKind]
  | wouldBlock => rfl
  | errOther => rfl

lemma stepOutSt_irrel {o : StepOut} (h : o ≠ StepOut.fatal) (d1 d2 : LoopState) :
    stepOutSt o d1 = stepOutSt o d2 := by
  cases o with
  | cont s => rfl
  | brk s => rfl
  | fatal => exact absurd rfl h

/-- The loop state after the wait check, the flush-flag consumption and the
stdin branch, in an iteration whose `select` succeeded. -/
def preState (cfg : SinkCfg) (st : LoopState) (inp : IterInput) (sR : Bool) : LoopState :=
  let st0 := if inp.sigusr1 then { st with flushFlag := handle_sigusr1 st.flushFlag } else st
  let st2 := (consumeFlag cfg (applyWait st0 inp.waitRes)).1
  if sR then (stdinBranch cfg st2 inp).1 else st2

lemma step_ready_decomp (cfg : SinkCfg) (st : LoopState) (inp : IterInput) (sR mR : Bool)
    (hs : inp.selectRes = SelectResult.ready sR mR) :
    (step cfg st inp).out
        = (if mR then (masterBranch cfg (preState cfg st inp sR) inp).1
            else StepOut.cont (preState cfg st inp sR)) ∧
    (step cfg st inp).sigFlushed
        = (consumeFlag cfg (applyWait
            (if inp.sigusr1 then { st with flushFlag := handle_sigusr1 st.flushFlag } else st)
            inp.waitRes)).2 := by
  cases sR <;> cases mR <;> exact ⟨by simp [step, preState, hs], by simp [step, hs]⟩

lemma applyWait_fields (st : LoopState) (w : Option ChildStatus) :
    (applyWait st w).totalBytes = st.totalBytes ∧
    (applyWait st w).transcript = st.transcript ∧
    (applyWait st w).flushFlag = st.flushFlag ∧
    (applyWait st w).killed = st.killed ∧
    (applyWait st w).childExited
        = (match w with
           | some _ => true
           | none => st.childExited) ∧
    (applyWait st w).exitStatus
        = (match w with
           | some cs => decodeStatus cs
           | none => st.exitStatus) := by
  cases w <;> exact ⟨rfl, rfl, rfl, rfl, rfl, rfl⟩

lemma sigStep_fields (st : LoopState) (sig : Bool) :
    (if sig then { st with flushFlag := handle_sigusr1 st.flushFlag } else st).totalBytes
        = st.totalBytes ∧
    (if sig then { st with flushFlag := handle_sigusr1 st.flushFlag } else st).transcript
        = st.transcript ∧
    (if sig then { st with flushFlag := handle_sigusr1 st.flushFlag } else st).killed
        = st.killed ∧
    (if sig then { st with flushFlag := handle_sigusr1 st.flushFlag } else st).childExited
        = st.childExited ∧
    (if sig then { st with flushFlag := handle_sigusr1 st.flushFlag } else st).exitStatus
        = st.exitStatus ∧
    (if sig then { st with flushFlag := handle_sigusr1 st.flushFlag } else st).flushFlag
        = (st.flushFlag || sig) := by
  cases sig <;> simp [handle_sigusr1]

lemma preState_fields (cfg : SinkCfg) (st : LoopState) (inp : IterInput) (sR : Bool) :
    (preState cfg st inp sR).totalBytes = st.totalBytes ∧
    (preState cfg st inp sR).transcript = st.transcript ∧
    (preState cfg st inp sR).flushFlag = false ∧
    (preState cfg st inp sR).killed = st.killed ∧
    (preState cfg st inp sR).childExited
        = (match inp.waitRes with
           | some _ => true
           | none => st.childExited) ∧
    (preState cfg st inp sR).exitStatus
        = (match inp.waitRes with
           | some cs => decodeStatus cs
           | none => st.exitStatus) := by
  unfold preState
  have h0 := sigStep_fields st inp.sigusr1
  have hA := applyWait_fields
    (if inp.sigusr1 then { st with flushFlag := handle_sigusr1 st.flushFlag } else st)
    inp.waitRes
  have hc := consumeFlag_fst cfg (applyWait
    (if inp.sigusr1 then { st with flushFlag := handle_sigusr1 st.flushFlag } else st)
    inp.waitRes)
  have hsb := stdinBranch_fst cfg (consumeFlag cfg (applyWait
    (if inp.sigusr1 then { st with flushFlag := handle_sigusr1 st.flushFlag } else st)
    inp.waitRes)).1 inp
  cases sR with
  | false =>
    simp only [Bool.false_eq_true, if_false]
    refine ⟨?_, ?_, hc.2.2.2.2.2, ?_, ?_, ?_⟩
    · rw [hc.1, hA.1, h0.1]
    · rw [hc.2.1, hA.2.1, h0.2.1]
    · rw [hc.2.2.2.2.1, hA.2.2.2.1, h0.2.2.1]
    · rw [hc.2.2.1, hA.2.2.2.2.1, h0.2.2.2.1]
    · rw [hc.2.2.2.1, hA.2.2.2.2.2, h0.2.2.2.2.1]
  | true =>
    simp only [if_true]
    refine ⟨?_, ?_, ?_, ?_, ?_, ?_⟩
    · rw [hsb.1, hc.1, hA.1, h0.1]
    · rw [hsb.2.1, hc.2.1, hA.2.1, h0.2.1]
    · rw [hsb.2.2.2.2.2]; exact hc.2.2.2.2.2
    · rw [hsb.2.2.2.2.1, hc.2.2.2.2.1, hA.2.2.2.1, h0.2.2.1]
    · rw [hsb.2.2.1, hc.2.2.1, hA.2.2.2.2.1, h0.2.2.2.1]
    · rw [hsb.2.2.2.1, hc.2.2.2.1, hA.2.2.2.2.2, h0.2.2.2.2.1]

lemma step_failed (cfg : SinkCfg) (st : LoopState) (inp : IterInput)
    (hs : inp.selectRes = SelectResult.failed) :
    step cfg st inp = ⟨StepOut.fatal, [], []⟩ := by
  simp [step, hs]

lemma step_interrupted (cfg : SinkCfg) (st : LoopState) (inp : IterInput)
    (hs : inp.selectRes = SelectResult.interrupted) :
    step cfg st inp = ⟨StepOut.cont (applyWait
      (if inp.sigusr1 then { st with flushFlag := handle_sigusr1 st.flushFlag } else st)
      inp.waitRes), [], []⟩ := by
  simp [step, hs]

lemma stepSt_ready (cfg : SinkCfg) (st : LoopState) (inp : IterInput) (sR mR : Bool)
    (hs : inp.selectRes = SelectResult.ready sR mR) :
    stepSt cfg st inp
      = stepOutSt (if mR then (masterBranch cfg (preState cfg st inp sR) inp).1
          else StepOut.cont (preState cfg st inp sR)) (preState cfg st inp sR) := by
  have ho := (step_ready_decomp cfg st inp sR mR hs).1
  unfold stepSt
  rw [ho]
  cases mR with
  | false => rfl
  | true =>
    have hnf := masterBranch_not_fatal cfg (preState cfg st inp sR) inp
    simp only [if_true]
    cases hmb : (masterBranch cfg (preState cfg st inp sR) inp).1 with
    | cont s => rfl
    | brk s => rfl
    | fatal => exact absurd hmb hnf

lemma masterLen_eq (inp : IterInput) (sR mR : Bool)
    (hs : inp.selectRes = SelectResult.ready sR mR) :
    masterLen inp = (if mR then readLen inp.masterRead else 0) := by
  cases mR <;> cases hr : inp.masterRead <;> simp [masterLen, readLen, hs, hr]

lemma masterLen_interrupted (inp : IterInput)
    (hs : inp.selectRes = SelectResult.interrupted) : masterLen inp = 0 := by
  cases hr : inp.masterRead <;> simp [masterLen, hs, hr]

lemma masterLen_failed (inp : IterInput)
    (hs : inp.selectRes = SelectResult.failed) : masterLen inp = 0 := by
  cases hr : inp.masterRead <;> simp [masterLen, hs, hr]

lemma stepSt_totalBytes (cfg : SinkCfg) (st : LoopState) (inp : IterInput) :
    (stepSt cfg st inp).totalBytes = st.totalBytes + masterLen inp := by
  cases hs : inp.selectRes with
  | failed =>
    unfold stepSt
    rw [step_failed cfg st inp hs, masterLen_failed inp hs]
    exact rfl
  | interrupted =>
    unfold stepSt
    rw [step_interrupted cfg st inp hs, masterLen_interrupted inp hs]
    have hA := applyWait_fields
      (if inp.sigusr1 then { st with flushFlag := handle_sigusr1 st.flushFlag } else st)
      inp.waitRes
    have h0 := sigStep_fields st inp.sigusr1
    show (applyWait _ _).totalBytes = _
    rw [hA.1, h0.1]
    exact rfl
  | ready sR mR =>
    rw [stepSt_ready cfg st inp sR mR hs, masterLen_eq inp sR mR hs]
    have hp := preState_fields cfg st inp sR
    cases mR with
    | false => simpa [stepOutSt] using hp.1
    | true =>
      simp only [if_true]
      rw [masterBranch_totalBytes, hp.1]

lemma stepSt_transcript_le (cfg : SinkCfg) (st : LoopState) (inp : IterInput) :
    (stepSt cfg st inp).transcript.length
      ≤ st.transcript.length + masterLen inp := by
  cases hs : inp.selectRes with
  | failed =>
    unfold stepSt
    rw [step_failed cfg st inp hs, masterLen_failed inp hs]
    exact Nat.le.refl
  | interrupted =>
    unfold stepSt
    rw [step_interrupted cfg st inp hs, masterLen_interrupted inp hs]
    have hA := applyWait_fields
      (if inp.sigusr1 then { st with flushFlag := handle_sigusr1 st.flushFlag } else st)
      inp.waitRes
    have h0 := sigStep_fields st inp.sigusr1
    show (applyWait _ _).transcript.length ≤ _
    rw [hA.2.1, h0.2.1]
    exact Nat.le.refl
  | ready sR mR =>
    rw [stepSt_ready cfg st inp sR mR hs, masterLen_eq inp sR mR hs]
    have hp := preState_fields cfg st inp sR
    cases mR with
    | false => simp [stepOutSt, hp.2.1]
    | true =>
      simp only [if_true]
      calc (stepOutSt (masterBranch cfg (preState cfg st inp sR) inp).1
              (preState cfg st inp sR)).transcript.length
          ≤ (preState cfg st inp sR).transcript.length + readLen inp.masterRead :=
            masterBranch_transcript_le cfg (preState cfg st inp sR) inp
        _ = st.transcript.length + readLen inp.masterRead := by rw [hp.2.1]

lemma stepSt_childExited (cfg : SinkCfg) (st : LoopState) (inp : IterInput) :
    (stepSt cfg st inp).childExited
      = (match inp.selectRes, inp.waitRes with
         | SelectResult.failed, _ => st.childExited
         | _, some _ => true
         | _, none => st.childExited) := by
  cases hs : inp.selectRes with
  | failed =>
    unfold stepSt
    rw [step_failed cfg st inp hs]
    cases inp.waitRes <;> rfl
  | interrupted =>
    unfold stepSt
    rw [step_interrupted cfg st inp hs]
    have hA := applyWait_fields
      (if inp.sigusr1 then { st with flushFlag := handle_sigusr1 st.flushFlag } else st)
      inp.waitRes
    have h0 := sigStep_fields st inp.sigusr1
    show (applyWait _ _).childExited = _
    rw [hA.2.2.2.2.1, h0.2.2.2.1]
    cases inp.waitRes <;> rfl
  | ready sR mR =>
    rw [stepSt_ready cfg st inp sR mR hs]
    have hp := preState_fields cfg st inp sR
    cases mR with
    | false =>
      simp only [Bool.false_eq_true, if_false, stepOutSt]
      rw [hp.2.2.2.2.1]
      cases inp.waitRes <;> rfl
    | true =>
      simp only [if_true]
      rw [masterBranch_childExited, hp.2.2.2.2.1]
      cases inp.waitRes <;> rfl

lemma stepSt_exitStatus (cfg : SinkCfg) (st : LoopState) (inp : IterInput) :
    (stepSt cfg st inp).exitStatus
      = (match inp.selectRes, inp.waitRes with
         | SelectResult.failed, _ => st.exitStatus
         | _, some cs => decodeStatus cs
         | _, none => st.exitStatus) := by
  cases hs : inp.selectRes with
  | failed =>
    unfold stepSt
    rw [step_failed cfg st inp hs]
    cases inp.waitRes <;> rfl
  | interrupted =>
    unfold stepSt
    rw [step_interrupted cfg st inp hs]
    have hA := applyWait_fields
      (if inp.sigusr1 then { st with flushFlag := handle_sigusr1 st.flushFlag } else st)
      inp.waitRes
    have h0 := sigStep_fields st inp.sigusr1
    show (applyWait _ _).exitStatus = _
    rw [hA.2.2.2.2.2, h0.2.2.2.2.1]
    cases inp.waitRes <;> rfl
  | ready sR mR =>
    rw [stepSt_ready cfg st inp sR mR hs]
    have hp := preState_fields cfg st inp sR
    cases mR with
    | false =>
      simp only [Bool.false_eq_true, if_false, stepOutSt]
      rw [hp.2.2.2.2.2]
      cases inp.waitRes <;> rfl
    | true =>
      simp only [if_true]
      rw [masterBranch_exitStatus, hp.2.2.2.2.2]
      cases inp.waitRes <;> rfl

lemma stepSt_flushFlag (cfg : SinkCfg) (st : LoopState) (inp : IterInput) :
    (stepSt cfg st inp).flushFlag
      = (match inp.selectRes with
         | SelectResult.ready _ _ => false
         | SelectResult.failed => st.flushFlag
         | SelectResult.interrupted => st.flushFlag || inp.sigusr1) := by
  cases hs : inp.selectRes with
  | failed =>
    unfold stepSt
    rw [step_failed cfg st inp hs]
  | interrupted =>
    unfold stepSt
    rw [step_interrupted cfg st inp hs]
    have hA := applyWait_fields
      (if inp.sigusr1 then { st with flushFlag := handle_sigusr1 st.flushFlag } else st)
      inp.waitRes
    have h0 := sigStep_fields st inp.sigusr1
    show (applyWait _ _).flushFlag = _
    rw [hA.2.2.1, h0.2.2.2.2.2]
  | ready sR mR =>
    rw [stepSt_ready cfg st inp sR mR hs]
    have hp := preState_fields cfg st inp sR
    cases mR with
    | false =>
      simp only [Bool.false_eq_true, if_false, stepOutSt]
      exact hp.2.2.1
    | true =>
      simp only [if_true]
      rw [masterBranch_flushFlag]
      exact hp.2.2.1

lemma stepSt_killed (cfg : SinkCfg) (st : LoopState) (inp : IterInput) :
    (stepSt cfg st inp).killed = (st.killed || limitHit cfg st inp) := by
  cases hs : inp.selectRes with
  | failed =>
    unfold stepSt
    rw [step_failed cfg st inp hs]
    cases hr : inp.masterRead <;> simp [limitHit, hs, hr]
  | interrupted =>
    unfold stepSt
    rw [step_interrupted cfg st inp hs]
    have hA := applyWait_fields
      (if inp.sigusr1 then { st with flushFlag := handle_sigusr1 st.flushFlag } else st)
      inp.waitRes
    have h0 := sigStep_fields st inp.sigusr1
    show (applyWait _ _).killed = _
    rw [hA.2.2.2.1, h0.2.2.1]
    cases hr : inp.masterRead <;> simp [limitHit, hs, hr]
  | ready sR mR =>
    rw [stepSt_ready cfg st inp sR mR hs]
    have hp := preState_fields cfg st inp sR
    cases mR with
    | false =>
      simp only [Bool.false_eq_true, if_false, stepOutSt]
      rw [hp.2.2.2.1]
      cases hr : inp.masterRead <;> simp [limitHit, hs, hr]
    | true =>
      simp only [if_true]
      rw [masterBranch_killed, hp.2.2.2.1, hp.1]
      cases hr : inp.masterRead with
      | data bs => cases hl : cfg.outputLimit <;> simp [limitHit, hs, hr, hl]
      | wouldBlock => cases hl : cfg.outputLimit <;> simp [limitHit, hs, hr, hl]
      | errOther => cases hl : cfg.outputLimit <;> simp [limitHit, hs, hr, hl]

lemma step_kind (cfg : SinkCfg) (st : LoopState) (inp : IterInput) :
    outKind (step cfg st inp).out
      = (match inp.selectRes with
         | SelectResult.failed => StepKind.fatalK
         | SelectResult.interrupted => StepKind.contK
         | SelectResult.ready _ _ =>
             if breaksLoop cfg st inp then StepKind.brkK else StepKind.contK) := by
  cases hs : inp.selectRes with
  | failed => rw [step_failed cfg st inp hs]; rfl
  | interrupted => rw [step_interrupted cfg st inp hs]; rfl
  | ready sR mR =>
    rw [(step_ready_decomp cfg st inp sR mR hs).1]
    cases mR with
    | false =>
      cases hr : inp.masterRead <;> simp [breaksLoop, outKind, hs, hr]
    | true =>
      simp only [if_true]
      rw [masterBranch_kind]
      have hp := preState_fields cfg st inp sR
      rw [hp.1]
      cases hr : inp.masterRead with
      | data bs =>
        by_cases h : bs.length = 0
        · simp [breaksLoop, limitHit, hs, hr, h]
        · cases hl : cfg.outputLimit with
          | none => simp [breaksLoop, limitHit, hs, hr, h, hl]
          | some l =>
            by_cases hge : l ≤ st.totalBytes + bs.length <;>
              simp [breaksLoop, limitHit, hs, hr, h, hl, hge, Nat.pos_of_ne_zero h]
      | wouldBlock => simp [breaksLoop, limitHit, hs, hr]
      | errOther => simp [breaksLoop, limitHit, hs, hr]

lemma step_sigFlushed (cfg : SinkCfg) (st : LoopState) (inp : IterInput) :
    (step cfg st inp).sigFlushed
      = (match inp.selectRes with
         | SelectResult.ready _ _ =>
             if st.flushFlag || inp.sigusr1 then openRoles cfg else []
         | _ => []) := by
  cases hs : inp.selectRes with
  | failed => rw [step_failed cfg st inp hs]
  | interrupted => rw [step_interrupted cfg st inp hs]
  | ready sR mR =>
    rw [(step_ready_decomp cfg st inp sR mR hs).2]
    have hA := applyWait_fields
      (if inp.sigusr1 then { st with flushFlag := handle_sigusr1 st.flushFlag } else st)
      inp.waitRes
    have h0 := sigStep_fields st inp.sigusr1
    unfold consumeFlag
    rw [hA.2.2.1, h0.2.2.2.2.2]
    by_cases hf : (st.flushFlag || inp.sigusr1) = true <;> simp [hf]

lemma step_out_shape (cfg : SinkCfg) (st : LoopState) (inp : IterInput) :
    (step cfg st inp).out
      = (match outKind (step cfg st inp).out with
         | StepKind.contK => StepOut.cont (stepSt cfg st inp)
         | StepKind.brkK => StepOut.brk (stepSt cfg st inp)
         | StepKind.fatalK => StepOut.fatal) := by
  cases h : (step cfg st inp).out with
  | cont s =>
    have hst : stepSt cfg st inp = s := by unfold stepSt; rw [h]
    rw [hst]
    rfl
  | brk s =>
    have hst : stepSt cfg st inp = s := by unfold stepSt; rw [h]
    rw [hst]
    rfl
  | fatal => rfl

lemma runLoop_cons (cfg : SinkCfg) (st : LoopState) (inp : IterInput)
    (rest : List IterInput) :
    runLoop cfg st (inp :: rest)
      = (match outKind (step cfg st inp).out with
         | StepKind.fatalK => LoopResult.failed st
         | StepKind.brkK =>
             LoopResult.finished (stepSt cfg st inp).exitStatus (stepSt cfg st inp)
         | StepKind.contK =>
             if (stepSt cfg st inp).childExited then
               LoopResult.finished (stepSt cfg st inp).exitStatus (stepSt cfg st inp)
             else runLoop cfg (stepSt cfg st inp) rest) := by
  show (match (step cfg st inp).out with
    | StepOut.fatal => LoopResult.failed st
    | StepOut.brk st2 => LoopResult.finished st2.exitStatus st2
    | StepOut.cont st2 =>
      if st2.childExited then LoopResult.finished st2.exitStatus st2
      else runLoop cfg st2 rest) = _
  cases h : (step cfg st inp).out with
  | cont s =>
    have hst : stepSt cfg st inp = s := by unfold stepSt; rw [h]
    rw [hst]
    rfl
  | brk s =>
    have hst : stepSt cfg st inp = s := by unfold stepSt; rw [h]
    rw [hst]
    rfl
  | fatal => rfl

lemma step_ready_reports (cfg : SinkCfg) (st : LoopState) (inp : IterInput)
    (sR mR : Bool) (hs : inp.selectRes = SelectResult.ready sR mR) :
    (step cfg st inp).reports
      = (if sR then (stdinBranch cfg (consumeFlag cfg (applyWait
            (if inp.sigusr1 then { st with flushFlag := handle_sigusr1 st.flushFlag } else st)
            inp.waitRes)).1 inp).2 else [])
        ++ (if mR then (masterBranch cfg (preState cfg st inp sR) inp).2 else []) := by
  cases sR <;> cases mR <;> simp [step, preState, hs]

lemma masterBranch_reports_transcript (cfg : SinkCfg) (st : LoopState) (inp : IterInput)
    (b : Nat) (bs : List Nat)
    (hr : inp.masterRead = ReadResult.data (b :: bs))
    (hw : inp.writes.toTranscript = false) :
    Report.writeFailed Role.transcript ∈ (masterBranch cfg st inp).2 := by
  unfold masterBranch
  rw [hr]
  cases hl : cfg.outputLimit with
  | none => simp [hw, hl]
  | some l =>
    by_cases hge : l ≤ st.totalBytes + (bs.length + 1) <;> simp [hw, hl, hge]

lemma stdinBranch_reports_master (cfg : SinkCfg) (st : LoopState) (inp : IterInput)
    (b : Nat) (bs : List Nat)
    (hr : inp.stdinRead = ReadResult.data (b :: bs))
    (hw : inp.writes.toMaster = false) :
    Report.masterWriteFailed ∈ (stdinBranch cfg st inp).2 := by
  unfold stdinBranch
  rw [hr]
  simp [hw]

lemma step_cont_total_lt (cfg : SinkCfg) (l : Nat) (st : LoopState) (inp : IterInput)
    (hl : cfg.outputLimit = some l)
    (hk : outKind (step cfg st inp).out = StepKind.contK)
    (hm : 0 < masterLen inp) :
    st.totalBytes + masterLen inp < l := by
  cases hs : inp.selectRes with
  | failed => rw [masterLen_failed inp hs] at hm; omega
  | interrupted => rw [masterLen_interrupted inp hs] at hm; omega
  | ready sR mR =>
    cases mR with
    | false => rw [masterLen_eq inp sR false hs] at hm; simp at hm
    | true =>
      rw [masterLen_eq inp sR true hs] at hm ⊢
      simp only [if_true] at hm ⊢
      rw [step_kind, hs] at hk
      cases hr : inp.masterRead with
      | data bs =>
        simp only [readLen, hr] at hm ⊢
        by_cases hbl : breaksLoop cfg st inp = true
        · simp [hbl] at hk
        · have hbf : breaksLoop cfg st inp = false := by
            cases hb2 : breaksLoop cfg st inp
            · rfl
            · exact absurd hb2 hbl
          simp [breaksLoop, limitHit, hs, hr, hl] at hbf
          omega
      | wouldBlock => simp [readLen, hr] at hm
      | errOther => simp [readLen, hr] at hm

lemma runLoop_bound (cfg : SinkCfg) (l : Nat) (hl : cfg.outputLimit = some l) :
    ∀ (inps : List IterInput) (st : LoopState),
      (∀ i ∈ inps, masterLen i ≤ 1024) →
      st.transcript.length ≤ st.totalBytes →
      (st.totalBytes < l ∨ st.totalBytes = 0) →
      ((runLoop cfg st inps).finalState).totalBytes ≤ l + 1024 ∧
      ((runLoop cfg st inps).finalState).transcript.length ≤ l + 1024 := by
  intro inps
  induction inps with
  | nil =>
    intro st _ ht hinv
    refine ⟨?_, ?_⟩ <;> simp [runLoop, LoopResult.finalState] <;> omega
  | cons i rest ih =>
    intro st hb ht hinv
    have hbi : masterLen i ≤ 1024 := hb i (List.mem_cons_self i rest)
    have hbr : ∀ j ∈ rest, masterLen j ≤ 1024 :=
      fun j hj => hb j (List.mem_cons_of_mem i hj)
    have htot := stepSt_totalBytes cfg st i
    have htr := stepSt_transcript_le cfg st i
    rw [runLoop_cons]
    cases hk : outKind (step cfg st i).out with
    | fatalK =>
      refine ⟨?_, ?_⟩ <;> simp [LoopResult.finalState] <;> omega
    | brkK =>
      refine ⟨?_, ?_⟩ <;> simp [LoopResult.finalState] <;> omega
    | contK =>
      have hlt : st.totalBytes + masterLen i < l ∨ masterLen i = 0 := by
        rcases Nat.eq_zero_or_pos (masterLen i) with h0 | hpos
        · right; exact h0
        · left; exact step_cont_total_lt cfg l st i hl hk hpos
      by_cases hce : (stepSt cfg st i).childExited = true
      · refine ⟨?_, ?_⟩ <;> simp [hce, LoopResult.finalState] <;> omega
      · have hce2 : (stepSt cfg st i).childExited = false := by
          cases hcc : (stepSt cfg st i).childExited
          · rfl
          · exact absurd hcc hce
        simp only [hce2, Bool.false_eq_true, if_false]
        exact ih (stepSt cfg st i) hbr (by omega) (by omega)

/-- Claim C3: the running byte counter grows only by master-side (output-direction)
bytes — input iterations leave it unchanged; in any iteration whose
master-side read takes the counter to the configured limit or beyond, the
loop breaks after sending the child a termination signal; and over any trace
whose reads fit the 1024-byte buffer, the transcript size stays within the
limit plus one read-buffer. -/
theorem output_limit_enforced (cfg : SinkCfg) (l : Nat)
    (hl : cfg.outputLimit = some l) :
    (∀ (st : LoopState) (inp : IterInput),
        (stepSt cfg st inp).totalBytes = st.totalBytes + masterLen inp) ∧
    (∀ (st : LoopState) (inp : IterInput) (sR : Bool) (b : Nat) (bs : List Nat),
        inp.selectRes = SelectResult.ready sR true →
        inp.masterRead = ReadResult.data (b :: bs) →
        l ≤ st.totalBytes + (b :: bs).length →
        (step cfg st inp).out = StepOut.brk (stepSt cfg st inp) ∧
          (stepSt cfg st inp).killed = true) ∧
    (∀ inps : List IterInput,
        (∀ i ∈ inps, masterLen i ≤ 1024) →
        ((runLoop cfg initState inps).finalState).totalBytes ≤ l + 1024 ∧
        ((runLoop cfg initState inps).finalState).transcript.length ≤ l + 1024) := by
  refine ⟨fun st inp => stepSt_totalBytes cfg st inp, ?_, ?_⟩
  · intro st inp sR b bs hsel hr hge
    have hlim : limitHit cfg st inp = true := by
      simp only [List.length_cons] at hge
      simp [limitHit, hsel, hr, hl]
      omega
    have hbreak : breaksLoop cfg st inp = true := by
      simp [breaksLoop, hsel, hr, hlim]
    have hkind : outKind (step cfg st inp).out = StepKind.brkK := by
      rw [step_kind, hsel]
      simp [hbreak]
    refine ⟨?_, ?_⟩
    · rw [step_out_shape cfg st inp, hkind]
    · rw [stepSt_killed, hlim, Bool.or_true]
  · intro inps hb
    exact runLoop_bound cfg l hl inps initState hb (Nat.le_refl 0) (Or.inr rfl)

def wAllOk : WriteFlags :=
  { toMaster := true, toStdout := true, toTranscript := true, toLogIn := true,
    toLogOut := true, toLogIoIn := true, toLogIoOut := true, toTimingIn := true,
    toTimingOut := true }

def cfg0 : SinkCfg :=
  { hasLogIn := false, hasLogOut := false, hasLogIo := false, hasTiming := true,
    logFormat := LogFormat.classic, flushEvery := false, outputLimit := some 5 }

def inpOut3 : IterInput :=
  { selectRes := SelectResult.ready false true, waitRes := none, sigusr1 := false,
    stdinRead := ReadResult.wouldBlock, masterRead := ReadResult.data [7, 7, 7],
    stdinNow := 0, masterNow := 0, writes := wAllOk }

/-- Witness for C3: with a 5-byte limit, a trace of two 3-byte output reads
stays within the limit-plus-buffer bound. -/
theorem output_limit_enforced_witness :
    cfg0.outputLimit = some 5 ∧
    ((runLoop cfg0 initState [inpOut3, inpOut3]).finalState).totalBytes ≤ 5 + 1024 :=
  ⟨rfl, ((output_limit_enforced cfg0 5 rfl).2.2 [inpOut3, inpOut3] (by decide)).1⟩

/-- Claim C6: a zero-byte read on the master side breaks the loop and the session
ends as a non-error result, while a zero-byte read on the caller's input in
an iteration with nothing else to report leaves the loop running. -/
theorem eof_semantics (cfg : SinkCfg) (st st2 : LoopState) (inpA inpB : IterInput)
    (sR : Bool) (rest : List IterInput) :
    ((step cfg st { inpA with
                    selectRes := SelectResult.ready sR true,
                    masterRead := ReadResult.data [] }).out).isBrk = true ∧
    (runLoop cfg st ({ inpA with
                       selectRes := SelectResult.ready sR true,
                       masterRead := ReadResult.data [] } :: rest)).endedOk = true ∧
    (runLoop cfg { st2 with childExited := false }
        [{ inpB with
           selectRes := SelectResult.ready true false,
           stdinRead := ReadResult.data [],
           waitRes := none }]).isRunning = true := by
  refine ⟨?_, ?_, ?_⟩
  · rw [step_out_shape, step_kind]
    simp [breaksLoop, StepOut.isBrk]
  · rw [runLoop_cons, step_kind]
    simp [breaksLoop, LoopResult.endedOk]
  · rw [runLoop_cons, step_kind]
    simp [breaksLoop, limitHit, LoopResult.isRunning, stepSt_childExited, runLoop]

/-- Claim C7: in every iteration whose wait succeeded, the flush flag is consumed
atomically — the step leaves it cleared, and every open sink (and only then)
is flushed exactly when the flag had been set; the signal handler does
nothing but set the flag. -/
theorem flush_flag_consumed (cfg : SinkCfg) (st : LoopState) (inp : IterInput)
    (sR mR : Bool) (b : Bool) :
    (step cfg st { inp with selectRes := SelectResult.ready sR mR }).sigFlushed
        = (if st.flushFlag || inp.sigusr1 then openRoles cfg else []) ∧
    (stepSt cfg st { inp with selectRes := SelectResult.ready sR mR }).flushFlag
        = false ∧
    handle_sigusr1 b = true := by
  refine ⟨?_, ?_, rfl⟩
  · rw [step_sigFlushed]
  · rw [stepSt_flushFlag]

lemma masterLen_writes (inp : IterInput) (w : WriteFlags) :
    masterLen { inp with writes := w } = masterLen inp := by
  obtain ⟨sel, wres, sig, srd, mrd, sn, mn, wr⟩ := inp
  cases sel with
  | ready a b => cases b <;> cases mrd <;> simp [masterLen]
  | interrupted => cases mrd <;> simp [masterLen]
  | failed => cases mrd <;> simp [masterLen]

lemma limitHit_writes (cfg : SinkCfg) (st : LoopState) (inp : IterInput) (w : WriteFlags) :
    limitHit cfg st { inp with writes := w } = limitHit cfg st inp := by
  obtain ⟨sel, wres, sig, srd, mrd, sn, mn, wr⟩ := inp
  cases sel with
  | ready a b =>
    cases b <;> cases mrd <;> cases hl : cfg.outputLimit <;> simp [limitHit, hl]
  | interrupted => cases mrd <;> simp [limitHit]
  | failed => cases mrd <;> simp [limitHit]

lemma breaksLoop_writes (cfg : SinkCfg) (st : LoopState) (inp : IterInput) (w : WriteFlags) :
    breaksLoop cfg st { inp with writes := w } = breaksLoop cfg st inp := by
  obtain ⟨sel, wres, sig, srd, mrd, sn, mn, wr⟩ := inp
  cases sel with
  | ready a b =>
    cases b <;> cases mrd <;> cases hl : cfg.outputLimit <;>
      simp [breaksLoop, limitHit, hl]
  | interrupted => simp [breaksLoop]
  | failed => simp [breaksLoop]

/-- Claim C8: the loop's control flow and control state are unchanged by sink write
failures — the same iteration with any other write outcomes continues or
breaks identically — failed writes are reported (transcript write failures
and master-side relay failures included), and a transcript open failure, by
contrast, makes the whole setup fail. -/
theorem write_failures_nonfatal (cfg : SinkCfg) (st : LoopState) (inp : IterInput)
    (w1 w2 wf : WriteFlags) (sR : Bool) (b : Nat) (bs : List Nat)
    (o : OpenCfg) (fs : SessionFs) :
    outKind (step cfg st { inp with writes := w1 }).out
        = outKind (step cfg st { inp with writes := w2 }).out ∧
    (stepSt cfg st { inp with writes := w1 }).childExited
        = (stepSt cfg st { inp with writes := w2 }).childExited ∧
    (stepSt cfg st { inp with writes := w1 }).exitStatus
        = (stepSt cfg st { inp with writes := w2 }).exitStatus ∧
    (stepSt cfg st { inp with writes := w1 }).totalBytes
        = (stepSt cfg st { inp with writes := w2 }).totalBytes ∧
    (stepSt cfg st { inp with writes := w1 }).killed
        = (stepSt cfg st { inp with writes := w2 }).killed ∧
    Report.writeFailed Role.transcript ∈
      (step cfg st { inp with
                     selectRes := SelectResult.ready sR true,
                     masterRead := ReadResult.data (b :: bs),
                     writes := { wf with toTranscript := false } }).reports ∧
    Report.masterWriteFailed ∈
      (step cfg st { inp with
                     selectRes := SelectResult.ready true sR,
                     stdinRead := ReadResult.data (b :: bs),
                     writes := { wf with toMaster := false } }).reports ∧
    (!exceptOkB (open_output_file fs.transcriptE o.append o.force) &&
        exceptOkB (openAllSinks o fs)) = false := by
  refine ⟨?_, ?_, ?_, ?_, ?_, ?_, ?_, ?_⟩
  · rw [step_kind, step_kind]
    simp only [breaksLoop_writes]
  · rw [stepSt_childExited, stepSt_childExited]
  · rw [stepSt_exitStatus, stepSt_exitStatus]
  · rw [stepSt_totalBytes, stepSt_totalBytes, masterLen_writes inp w1,
      masterLen_writes inp w2]
  · rw [stepSt_killed, stepSt_killed, limitHit_writes cfg st inp w1,
      limitHit_writes cfg st inp w2]
  · rw [step_ready_reports cfg st _ sR true rfl]
    refine List.mem_append.mpr (Or.inr ?_)
    exact masterBranch_reports_transcript cfg _ _ b bs rfl rfl
  · rw [step_ready_reports cfg st _ true sR rfl]
    refine List.mem_append.mpr (Or.inl ?_)
    exact stdinBranch_reports_master cfg _ _ b bs rfl rfl
  · cases ho : open_output_file fs.transcriptE o.append o.force <;>
      simp [exceptOkB, openAllSinks, ho]

end Script
